import Mathlib

/-!
Verification of the esportscalendar selection-to-calendar pipeline.

The definitions below are a shallow embedding of the Go source:
* the selection codec (`parseSelections` in middleware/utils.go),
* the request-body unwrapping used by the preview and calendar handlers,
* the match resolver (`fetchMatches` plus the two SQL queries it issues),
* the iCalendar codec (`generateICS` / `escapeICS` in middleware/ics_generator.go),
* the bounded local LRU cache (`ICSCache` in middleware/page_handlers.go).

JSON numbers are modelled as integers (the payloads carry ids and tier
ordinals); Go's `float64` type assertion corresponds to the `num`
constructor.  Timestamps are seconds since the Unix epoch, as integers.
-/

/-- JSON values as decoded by Go's encoding/json into `map[string]any`:
an object is an association list with distinct keys (map iteration order
is modelled by the list order). -/
inductive JSON where
  | null : JSON
  | bool : Bool → JSON
  | num : Int → JSON
  | str : String → JSON
  | arr : List JSON → JSON
  | obj : List (String × JSON) → JSON

/-- Value of the decimal digit string `ds` (most significant first). -/
def digitsToNat (ds : List Char) : Nat :=
  ds.foldl (fun acc c => acc * 10 + (c.toNat - '0'.toNat)) 0

/-- Go's `strconv.ParseInt(s, 10, 32)`: optional sign, a nonempty run of
decimal digits, and a 32-bit range check; any violation yields an error
(`none`). -/
def goParseInt32 (s : String) : Option Int :=
  let p : Int × List Char :=
    match s.data with
    | '+' :: r => (1, r)
    | '-' :: r => (-1, r)
    | r => (1, r)
  if p.2.isEmpty then none
  else if p.2.all Char.isDigit then
    let v : Int := p.1 * (digitsToNat p.2 : Int)
    if -(2 ^ 31) ≤ v ∧ v ≤ 2 ^ 31 - 1 then some v else none
  else none

/-- Lookup of a key in a decoded JSON object (Go map indexing). -/
def jsonLookup (fields : List (String × JSON)) (k : String) : Option JSON :=
  match fields with
  | [] => none
  | (k', v) :: r => if k' = k then some v else jsonLookup r k

/-- The canonical filter produced by `parseSelections`: flattened game,
league and team id arrays plus the single max-tier ceiling. -/
structure ParsedSelections where
  gameIDs : List Int
  leagueIDs : List Int
  teamIDs : List Int
  maxTier : Int
deriving DecidableEq, Repr

/-- The numeric elements of a JSON array, in order; non-numeric elements
are dropped (Go's per-element `float64` type assertion). -/
def numItems (items : List JSON) : List Int :=
  items.filterMap (fun j => match j with | JSON.num n => some n | _ => none)

/-- The elements of the array stored under `field`, or `[]` when the field
is absent or not an array (Go's `selectionMap[field].([]any)` assertion). -/
def selectionArr (m : List (String × JSON)) (field : String) : List JSON :=
  match jsonLookup m field with
  | some (JSON.arr items) => items
  | _ => []

/-- The numeric `maxTier` field of a per-game selection object, if present
(Go's `selectionMap["maxTier"].(float64)` assertion). -/
def tierOf (m : List (String × JSON)) : Option Int :=
  match jsonLookup m "maxTier" with
  | some (JSON.num n) => some n
  | _ => none

/-- One iteration of the `parseSelections` loop in middleware/utils.go:
skip the entry when the key fails `ParseInt`; otherwise record the game id,
and when the value is an object append its numeric league and team entries
and raise the running max tier if this game's tier exceeds it. -/
def parseSelectionsStep (acc : ParsedSelections) (entry : String × JSON) :
    ParsedSelections :=
  match goParseInt32 entry.1 with
  | none => acc
  | some g =>
    let acc1 := { acc with gameIDs := acc.gameIDs ++ [g] }
    match entry.2 with
    | JSON.obj m =>
      let acc2 := { acc1 with leagueIDs := acc1.leagueIDs ++ numItems (selectionArr m "leagues") }
      let acc3 := { acc2 with teamIDs := acc2.teamIDs ++ numItems (selectionArr m "teams") }
      match tierOf m with
      | some tier => if tier > acc3.maxTier then { acc3 with maxTier := tier } else acc3
      | none => acc3
    | _ => acc1

/-- `parseSelections` (middleware/utils.go): fold the loop body over the
selection entries starting from empty id lists and the default tier 1. -/
def parseSelections (sel : List (String × JSON)) : ParsedSelections :=
  sel.foldl parseSelectionsStep ⟨[], [], [], 1⟩

/-- Game ids contributed by a single selection entry. -/
def entryGames (e : String × JSON) : List Int :=
  match goParseInt32 e.1 with
  | some g => [g]
  | none => []

/-- League ids contributed by a single selection entry. -/
def entryLeagues (e : String × JSON) : List Int :=
  match goParseInt32 e.1, e.2 with
  | some _, JSON.obj m => numItems (selectionArr m "leagues")
  | _, _ => []

/-- Team ids contributed by a single selection entry. -/
def entryTeams (e : String × JSON) : List Int :=
  match goParseInt32 e.1, e.2 with
  | some _, JSON.obj m => numItems (selectionArr m "teams")
  | _, _ => []

/-- The tier value a single selection entry feeds into the max-tier
aggregation, if any. -/
def entryTier (e : String × JSON) : Option Int :=
  match goParseInt32 e.1, e.2 with
  | some _, JSON.obj m => tierOf m
  | _, _ => none

/-- The tier aggregation performed by one loop iteration, in isolation. -/
def tierStep (t : Int) (e : String × JSON) : Int :=
  match entryTier e with
  | some x => if x > t then x else t
  | none => t

example : goParseInt32 "7" = some 7 := by decide
example : goParseInt32 "-12" = some (-12) := by decide
example : goParseInt32 "" = none := by decide
example : goParseInt32 "12x" = none := by decide
example : goParseInt32 "2147483648" = none := by decide
example : goParseInt32 "2147483647" = some 2147483647 := by decide
example :
    parseSelections [("7", JSON.str "junk")] = ⟨[7], [], [], 1⟩ := by decide
example :
    parseSelections
      [("3", JSON.obj [("leagues", JSON.arr [JSON.num 5, JSON.str "x", JSON.num 6]),
                       ("teams", JSON.arr [JSON.num 9]),
                       ("maxTier", JSON.num 4)]),
       ("oops", JSON.num 1)] = ⟨[3], [5, 6], [9], 4⟩ := by decide

/-- Insert `a` into `l` before the first element `b` with `¬ le a b`
(stable insertion for insertion sort). -/
def insertLe {α : Type} (le : α → α → Bool) (a : α) : List α → List α
  | [] => [a]
  | b :: r => if le a b then a :: b :: r else b :: insertLe le a r

/-- Stable insertion sort with respect to the boolean relation `le`; one
admissible execution of a SQL `ORDER BY` on the filtered rows. -/
def sortLe {α : Type} (le : α → α → Bool) (l : List α) : List α :=
  l.foldr (insertLe le) []

/-- A row of the `matches` join used by the preview queries: only the
columns the WHERE/ORDER BY clauses read, plus the id.
`expectedStartTime` is nullable; `tier` is the joined tournament tier,
read through `COALESCE(tour.tier, 0)`. -/
structure MatchRow where
  id : Int
  expectedStartTime : Option Int
  gameID : Int
  leagueID : Int
  team1ID : Int
  team2ID : Int
  tier : Option Int
deriving DecidableEq, Repr

/-- Sort key of the preview queries: rows returned by them always carry a
non-null start time, so the default is never read. -/
def startKey (m : MatchRow) : Int :=
  m.expectedStartTime.getD 0

/-- Ascending comparison by expected start time. -/
def startLeB (a b : MatchRow) : Bool :=
  startKey a ≤ startKey b

/-- Descending comparison by expected start time. -/
def startGeB (a b : MatchRow) : Bool :=
  startKey b ≤ startKey a

/-- The selection predicate shared by the match queries:
`game_id = ANY(game_ids) AND ((team1_id = ANY(team_ids) OR team2_id =
ANY(team_ids)) OR (league_id = ANY(league_ids) AND COALESCE(tour.tier, 0)
<= max_tier))`. -/
def selectionPred (gameIDs leagueIDs teamIDs : List Int) (maxTier : Int)
    (m : MatchRow) : Bool :=
  gameIDs.contains m.gameID &&
    ((teamIDs.contains m.team1ID || teamIDs.contains m.team2ID) ||
      (leagueIDs.contains m.leagueID && (m.tier.getD 0) ≤ maxTier))

/-- WHERE clause of `GetFutureMatchesBySelections`: a null start time fails
the SQL comparison `expected_start_time >= NOW()`. -/
def futureWhere (now : Int) (gameIDs leagueIDs teamIDs : List Int)
    (maxTier : Int) (m : MatchRow) : Bool :=
  match m.expectedStartTime with
  | some t => now ≤ t && selectionPred gameIDs leagueIDs teamIDs maxTier m
  | none => false

/-- WHERE clause of `GetPastMatchesBySelections` (`expected_start_time <
NOW()`). -/
def pastWhere (now : Int) (gameIDs leagueIDs teamIDs : List Int)
    (maxTier : Int) (m : MatchRow) : Bool :=
  match m.expectedStartTime with
  | some t => t < now && selectionPred gameIDs leagueIDs teamIDs maxTier m
  | none => false

/-- `GetFutureMatchesBySelections` (sqlc/queries.sql): rows passing the
future WHERE clause, ordered ascending by start time, limited. -/
def getFutureMatchesBySelections (db : List MatchRow) (now : Int)
    (gameIDs leagueIDs teamIDs : List Int) (maxTier : Int) (limit : Nat) :
    List MatchRow :=
  (sortLe startLeB (db.filter (futureWhere now gameIDs leagueIDs teamIDs maxTier))).take limit

/-- `GetPastMatchesBySelections` (sqlc/queries.sql): the inner query takes
the rows passing the past WHERE clause ordered descending by start time up
to the limit, and the outer query re-sorts them ascending. -/
def getPastMatchesBySelections (db : List MatchRow) (now : Int)
    (gameIDs leagueIDs teamIDs : List Int) (maxTier : Int) (limit : Nat) :
    List MatchRow :=
  sortLe startLeB
    ((sortLe startGeB (db.filter (pastWhere now gameIDs leagueIDs teamIDs maxTier))).take limit)

/-- The target size in `fetchMatches` (`const totalLimit = 10`). -/
def totalLimit : Nat := 10

/-- `fetchMatches` (middleware, preview path): with no selected games
return immediately; otherwise fetch up to 10 future matches, fetch past
matches only when slots remain, and return past (ascending) ++ future
(ascending) together with the past-fallback flag, which is set exactly
when no future match but at least one past match was found. -/
def fetchMatches (db : List MatchRow) (now : Int)
    (gameIDs leagueIDs teamIDs : List Int) (maxTier : Int) :
    List MatchRow × Bool :=
  if gameIDs.isEmpty then ([], false)
  else
    let futureMatches := getFutureMatchesBySelections db now gameIDs leagueIDs teamIDs maxTier totalLimit
    let remainingSlots := totalLimit - futureMatches.length
    let pastMatches :=
      if remainingSlots > 0 then
        getPastMatchesBySelections db now gameIDs leagueIDs teamIDs maxTier remainingSlots
      else []
    (pastMatches ++ futureMatches,
     futureMatches.isEmpty && !pastMatches.isEmpty)

example :
    fetchMatches
      [⟨1, some 50, 1, 1, 1, 2, some 1⟩, ⟨2, some 150, 1, 1, 1, 2, some 1⟩]
      100 [1] [1] [] 1 =
    ([⟨1, some 50, 1, 1, 1, 2, some 1⟩, ⟨2, some 150, 1, 1, 1, 2, some 1⟩], false) := by
  decide

example :
    fetchMatches [⟨1, some 50, 1, 1, 1, 2, some 1⟩] 100 [1] [1] [] 1 =
    ([⟨1, some 50, 1, 1, 1, 2, some 1⟩], true) := by
  decide

example : fetchMatches [⟨1, some 50, 1, 1, 1, 2, some 1⟩] 100 [] [] [] 1 = ([], false) := by
  decide

/-- `strings.ReplaceAll` specialised to a single-character pattern: every
occurrence of `c` is replaced by `rep`. -/
def replaceChar (c : Char) (rep : List Char) (l : List Char) : List Char :=
  l.flatMap (fun x => if x = c then rep else [x])

/-- `escapeICS` (middleware/ics_generator.go) on character lists: the four
`ReplaceAll` passes in source order — backslash first, then comma,
semicolon and newline. -/
def escapeICSList (l : List Char) : List Char :=
  replaceChar '\n' ['\\', 'n']
    (replaceChar ';' ['\\', ';']
      (replaceChar ',' ['\\', ',']
        (replaceChar '\\' ['\\', '\\'] l)))

/-- `escapeICS` on strings. -/
def escapeICS (s : String) : String :=
  String.mk (escapeICSList s.data)

/-- The effect of the whole escaping pipeline on one input character. -/
def escapeCharSpec (c : Char) : List Char :=
  if c = '\\' then ['\\', '\\']
  else if c = ',' then ['\\', ',']
  else if c = ';' then ['\\', ';']
  else if c = '\n' then ['\\', 'n']
  else [c]

/-- A character list is well escaped when every backslash starts a
two-character escape pair (`\\`, `\,`, `\;` or `\n`) and no comma,
semicolon or literal newline occurs outside such a pair. -/
def wellEscaped : List Char → Bool
  | [] => true
  | ['\\'] => false
  | '\\' :: c :: r => (c = '\\' || c = ',' || c = ';' || c = 'n') && wellEscaped r
  | c :: r => (!(c = '\\' || c = ',' || c = ';' || c = '\n')) && wellEscaped r

/-- The canonical iCalendar text decoder: a backslash escape pair decodes
to the escaped character (with `\n` decoding to a newline); used to state
that `escapeICS` never double-escapes. -/
def unescapeICSList : List Char → List Char
  | [] => []
  | ['\\'] => ['\\']
  | '\\' :: c :: r => (if c = 'n' then '\n' else c) :: unescapeICSList r
  | c :: r => c :: unescapeICSList r

/-- Decoder on strings. -/
def unescapeICS (s : String) : String :=
  String.mk (unescapeICSList s.data)

example : escapeICS "a,b;c\\d\ne" = "a\\,b\\;c\\\\d\\ne" := by decide
example : unescapeICS (escapeICS "a,b;c\\d\ne") = "a,b;c\\d\ne" := by decide
example : wellEscaped (escapeICS "a,b;c\\d\ne").data = true := by decide

/-- Two decimal digits with zero padding (Go time layout `04`/`05` etc.). -/
def pad2 (n : Nat) : List Char :=
  [Nat.digitChar (n / 10 % 10), Nat.digitChar (n % 10)]

/-- Four decimal digits with zero padding (Go time layout `2006`). -/
def pad4 (n : Nat) : List Char :=
  [Nat.digitChar (n / 1000 % 10), Nat.digitChar (n / 100 % 10),
   Nat.digitChar (n / 10 % 10), Nat.digitChar (n % 10)]

/-- Civil date (year, month, day) of a day count relative to 1970-01-01,
the standard days-to-civil conversion used by time libraries. -/
def civilFromDays (z0 : Int) : Int × Nat × Nat :=
  let z := z0 + 719468
  let era := z.fdiv 146097
  let doe := (z - era * 146097).toNat
  let yoe := (doe - doe / 1460 + doe / 36524 - doe / 146096) / 365
  let doy := doe - (365 * yoe + yoe / 4 - yoe / 100)
  let mp := (5 * doy + 2) / 153
  let d := doy - (153 * mp + 2) / 5 + 1
  let mo := if mp < 10 then mp + 3 else mp - 9
  let y := (yoe : Int) + era * 400
  (if mo ≤ 2 then y + 1 else y, mo, d)

/-- Go's `t.UTC().Format("20060102T150405Z")` for an epoch-seconds
timestamp: UTC basic ISO form `yyyymmddThhmmssZ` (years of common-era
calendar dates up to 9999, the domain of match schedules). -/
def formatICSTimeUTC (t : Int) : String :=
  let days := t.fdiv 86400
  let sod := (t - days * 86400).toNat
  let c := civilFromDays days
  String.mk
    (pad4 c.1.toNat ++ pad2 c.2.1 ++ pad2 c.2.2 ++ ['T'] ++
     pad2 (sod / 3600) ++ pad2 (sod % 3600 / 60) ++ pad2 (sod % 60) ++ ['Z'])

example : formatICSTimeUTC 0 = "19700101T000000Z" := by decide
example : formatICSTimeUTC 1760140800 = "20251011T000000Z" := by decide
example : formatICSTimeUTC 951827696 = "20000229T123456Z" := by decide

/-- A row of `GetCalendarMatchesBySelections`: the columns `generateICS`
reads.  `team1Name`/`team2Name` are nullable (LEFT-joinable display
names); `expectedStartTime` is nullable and excludes the match from
rendering when absent. -/
structure CalRow where
  id : Int
  name : String
  expectedStartTime : Option Int
  finished : Bool
  team1Score : Int
  team2Score : Int
  amountOfGames : Int
  gameName : String
  leagueName : String
  seriesName : String
  tournamentName : String
  team1Name : Option String
  team2Name : Option String
deriving DecidableEq, Repr

/-- Team display name with the `"TBD"` fallback for a null name. -/
def calTeamName (t : Option String) : String :=
  t.getD "TBD"

/-- The SUMMARY text built by `generateICS`: bracketed game name, optional
tournament name, match name, and a score suffix when the match is
finished and scores are not hidden. -/
def summaryOf (hideScores : Bool) (m : CalRow) : String :=
  let base :=
    if m.tournamentName ≠ "" then
      "[" ++ m.gameName ++ "] " ++ m.tournamentName ++ " - " ++ m.name
    else
      "[" ++ m.gameName ++ "] " ++ m.name
  if m.finished && !hideScores then
    base ++ " [" ++ toString m.team1Score ++ "-" ++ toString m.team2Score ++ "]"
  else base

/-- The DESCRIPTION text built by `generateICS`: teams, tournament,
league and game, with the score replaced by `[Finished]` when scores are
hidden. -/
def descriptionOf (hideScores : Bool) (m : CalRow) : String :=
  let t1 := calTeamName m.team1Name
  let t2 := calTeamName m.team2Name
  let tail := " - " ++ m.tournamentName ++ " - " ++ m.leagueName ++ " (" ++ m.gameName ++ ")"
  if m.finished then
    if hideScores then t1 ++ " vs " ++ t2 ++ " [Finished]" ++ tail
    else
      t1 ++ " vs " ++ t2 ++ " [" ++ toString m.team1Score ++ "-" ++
        toString m.team2Score ++ "]" ++ tail
  else t1 ++ " vs " ++ t2 ++ tail

/-- The LOCATION text built by `generateICS`: league and series joined by
a dash, either alone when the other is empty, empty when both are. -/
def locationOf (m : CalRow) : String :=
  if m.leagueName ≠ "" && m.seriesName ≠ "" then m.leagueName ++ " - " ++ m.seriesName
  else if m.leagueName ≠ "" then m.leagueName
  else if m.seriesName ≠ "" then m.seriesName
  else ""

/-- The lines one loop iteration of `generateICS` writes for a match: no
lines when the start time is null (the `continue`), otherwise one VEVENT
block whose DTEND is DTSTART plus one hour per game, with every free-text
field passed through `escapeICS`, and the LOCATION line omitted when the
location text is empty. -/
def matchEventLines (hideScores : Bool) (baseURL : String) (m : CalRow) :
    List String :=
  match m.expectedStartTime with
  | none => []
  | some t =>
    ["BEGIN:VEVENT",
     "UID:" ++ toString m.id ++ "@" ++ baseURL,
     "DTSTAMP:" ++ formatICSTimeUTC t,
     "DTSTART:" ++ formatICSTimeUTC t,
     "DTEND:" ++ formatICSTimeUTC (t + m.amountOfGames * 3600),
     "URL:" ++ baseURL,
     "SUMMARY:" ++ escapeICS (summaryOf hideScores m),
     "DESCRIPTION:" ++ escapeICS (descriptionOf hideScores m)]
    ++ (if locationOf m ≠ "" then ["LOCATION:" ++ escapeICS (locationOf m)] else [])
    ++ ["STATUS:CONFIRMED", "END:VEVENT"]

/-- The fixed calendar header written before the match loop. -/
def icsHeaderLines : List String :=
  ["BEGIN:VCALENDAR", "VERSION:2.0", "PRODID:-//EsportsCalendar//EN",
   "CALSCALE:GREGORIAN", "X-WR-CALNAME:Esports Calendar", "X-WR-TIMEZONE:UTC"]

/-- `generateICS` as the list of CRLF-terminated lines it writes: header,
then the per-match loop, then the closing line. -/
def generateICSLines (ms : List CalRow) (hideScores : Bool)
    (baseURL : String) : List String :=
  icsHeaderLines ++
    ms.foldl (fun acc m => acc ++ matchEventLines hideScores baseURL m) [] ++
    ["END:VCALENDAR"]

/-- `generateICS` (middleware/ics_generator.go): the built string, each
written line terminated by CRLF. -/
def generateICS (ms : List CalRow) (hideScores : Bool)
    (baseURL : String) : String :=
  (generateICSLines ms hideScores baseURL).foldl
    (fun acc line => acc ++ line ++ "\r\n") ""

set_option maxRecDepth 8192 in
example :
    generateICS
      [{ id := 5, name := "A vs B", expectedStartTime := some 0,
         finished := false, team1Score := 0, team2Score := 0,
         amountOfGames := 3, gameName := "LoL", leagueName := "LCK",
         seriesName := "", tournamentName := "", team1Name := some "A",
         team2Name := some "B" }] false "example.org" =
    "BEGIN:VCALENDAR\r\nVERSION:2.0\r\nPRODID:-//EsportsCalendar//EN\r\n" ++
    "CALSCALE:GREGORIAN\r\nX-WR-CALNAME:Esports Calendar\r\nX-WR-TIMEZONE:UTC\r\n" ++
    "BEGIN:VEVENT\r\nUID:5@example.org\r\nDTSTAMP:19700101T000000Z\r\n" ++
    "DTSTART:19700101T000000Z\r\nDTEND:19700101T030000Z\r\nURL:example.org\r\n" ++
    "SUMMARY:[LoL] A vs B\r\nDESCRIPTION:A vs B - " ++
    " - LCK (LoL)\r\nLOCATION:LCK\r\nSTATUS:CONFIRMED\r\nEND:VEVENT\r\n" ++
    "END:VCALENDAR\r\n" := by
  decide

/-- `hideScores` extraction in the preview/export handlers: the boolean
field when present, `false` otherwise. -/
def extractHideScores (body : List (String × JSON)) : Bool :=
  match jsonLookup body "hideScores" with
  | some (JSON.bool b) => b
  | _ => false

/-- Selection extraction in the preview/calendar handlers: the object
stored under `"selections"` when present (wrapped shape), otherwise the
body itself (bare shape). -/
def extractSelections (body : List (String × JSON)) : List (String × JSON) :=
  match jsonLookup body "selections" with
  | some (JSON.obj s) => s
  | _ => body

/-- The filter a handler derives from a decoded request body: unwrap, then
`parseSelections`. -/
def handlerParseSelections (body : List (String × JSON)) : ParsedSelections :=
  parseSelections (extractSelections body)

/-- The wrapped export request shape of the spec:
a body with a `selections` object and a `hideScores` flag. -/
def wrapBody (sel : List (String × JSON)) (hideScores : Bool) :
    List (String × JSON) :=
  [("selections", JSON.obj sel), ("hideScores", JSON.bool hideScores)]

/-- `maxCacheSize` in middleware/page_handlers.go. -/
def maxCacheSize : Nat := 256

/-- `cacheRefreshTime` (one hour), in seconds. -/
def cacheRefreshTime : Nat := 3600

/-- One `ICSCache` entry: key hash, cached content (the file body behind
`filePath`, modelled in memory) and the last update time. -/
structure ICSEntry where
  hash : String
  content : String
  lastUpdate : Nat
deriving DecidableEq, Repr

/-- The `ICSCache` state: the entries in LRU-list order, front = most
recently used (`lruList` plus the `entries` map). -/
structure ICSCacheState where
  entries : List ICSEntry
deriving DecidableEq, Repr

/-- `ICSCache.Get`: a missing key or an entry older than the refresh time
is a miss and leaves the list untouched; a hit returns the cached content
and moves the entry to the front of the LRU list. -/
def icsCacheGet (st : ICSCacheState) (hash : String) (now : Nat) :
    Option String × ICSCacheState :=
  match st.entries.find? (fun e => e.hash = hash) with
  | none => (none, st)
  | some e =>
    if now - e.lastUpdate > cacheRefreshTime then (none, st)
    else (some e.content, ⟨e :: st.entries.eraseP (fun x => x.hash = hash)⟩)

/-- `ICSCache.Set`: an existing key is rewritten in place, stamped with
the current time and moved to the front; a new key first evicts the back
(least recently used) entry when the list is at capacity, then is pushed
to the front. -/
def icsCacheSet (st : ICSCacheState) (hash content : String) (now : Nat) :
    ICSCacheState :=
  if (st.entries.find? (fun e => e.hash = hash)).isSome then
    ⟨⟨hash, content, now⟩ :: st.entries.eraseP (fun x => x.hash = hash)⟩
  else
    let kept := if st.entries.length ≥ maxCacheSize then st.entries.dropLast else st.entries
    ⟨⟨hash, content, now⟩ :: kept⟩

/-- A client operation against the cache. -/
inductive CacheOp where
  | get (hash : String) (now : Nat)
  | set (hash content : String) (now : Nat)

/-- State transition of one operation (the value a `Get` returns is
dropped). -/
def cacheStep (st : ICSCacheState) (op : CacheOp) : ICSCacheState :=
  match op with
  | CacheOp.get h now => (icsCacheGet st h now).2
  | CacheOp.set h c now => icsCacheSet st h c now

/-- The state after a sequence of operations started from the empty
cache. -/
def runCacheOps (ops : List CacheOp) : ICSCacheState :=
  ops.foldl cacheStep ⟨[]⟩

/-- The keys currently cached, most recently used first. -/
def cacheKeys (st : ICSCacheState) : List String :=
  st.entries.map ICSEntry.hash

example :
    icsCacheGet ⟨[⟨"a", "A", 0⟩, ⟨"b", "B", 0⟩]⟩ "b" 10 =
      (some "B", ⟨[⟨"b", "B", 0⟩, ⟨"a", "A", 0⟩]⟩) := by decide
example :
    icsCacheGet ⟨[⟨"a", "A", 0⟩]⟩ "a" 5000 = (none, ⟨[⟨"a", "A", 0⟩]⟩) := by decide
example :
    icsCacheSet ⟨[⟨"a", "A", 0⟩]⟩ "a" "A2" 7 = ⟨[⟨"a", "A2", 7⟩]⟩ := by decide

/-- Sorted non-decreasingly by expected start time. -/
def startSorted (l : List MatchRow) : Prop :=
  l.Pairwise (fun a b => startKey a ≤ startKey b)

/-- Sorted strictly ascendingly by expected start time. -/
def startStrictSorted (l : List MatchRow) : Prop :=
  l.Pairwise (fun a b => startKey a < startKey b)

/-- Whether an optional JSON value is an object (the shape test the
handlers use to recognise the wrapped request format). -/
def isObjVal : Option JSON → Bool
  | some (JSON.obj _) => true
  | _ => false

lemma parseSelectionsStep_gameIDs (acc : ParsedSelections) (e : String × JSON) :
    (parseSelectionsStep acc e).gameIDs = acc.gameIDs ++ entryGames e := by
  unfold parseSelectionsStep entryGames
  cases h : goParseInt32 e.1 with
  | none => simp
  | some g =>
    cases e.2 <;> simp
    case obj m =>
      cases h2 : tierOf m with
      | none => simp [h2]
      | some tier => simp [h2, apply_ite ParsedSelections.gameIDs]

lemma parseSelectionsStep_leagueIDs (acc : ParsedSelections) (e : String × JSON) :
    (parseSelectionsStep acc e).leagueIDs = acc.leagueIDs ++ entryLeagues e := by
  unfold parseSelectionsStep entryLeagues
  cases h : goParseInt32 e.1 with
  | none => simp
  | some g =>
    cases e.2 <;> simp [h]
    case obj m =>
      cases h2 : tierOf m with
      | none => simp [h2]
      | some tier => simp [h2, apply_ite ParsedSelections.leagueIDs]

lemma parseSelectionsStep_teamIDs (acc : ParsedSelections) (e : String × JSON) :
    (parseSelectionsStep acc e).teamIDs = acc.teamIDs ++ entryTeams e := by
  unfold parseSelectionsStep entryTeams
  cases h : goParseInt32 e.1 with
  | none => simp
  | some g =>
    cases e.2 <;> simp [h]
    case obj m =>
      cases h2 : tierOf m with
      | none => simp [h2]
      | some tier => simp [h2, apply_ite ParsedSelections.teamIDs]

lemma parseSelectionsStep_maxTier (acc : ParsedSelections) (e : String × JSON) :
    (parseSelectionsStep acc e).maxTier = tierStep acc.maxTier e := by
  unfold parseSelectionsStep tierStep entryTier
  cases h : goParseInt32 e.1 with
  | none => simp
  | some g =>
    cases e.2 <;> simp [h]
    case obj m =>
      cases h2 : tierOf m with
      | none => simp [h2]
      | some tier =>
        simp [h2, apply_ite ParsedSelections.maxTier]

lemma foldl_parseSelectionsStep_gameIDs (sel : List (String × JSON)) :
    ∀ acc : ParsedSelections,
      (List.foldl parseSelectionsStep acc sel).gameIDs =
        acc.gameIDs ++ sel.flatMap entryGames := by
  induction sel with
  | nil => intro acc; simp
  | cons e r ih =>
    intro acc
    simp only [List.foldl_cons, List.flatMap_cons]
    rw [ih, parseSelectionsStep_gameIDs, List.append_assoc]

lemma foldl_parseSelectionsStep_leagueIDs (sel : List (String × JSON)) :
    ∀ acc : ParsedSelections,
      (List.foldl parseSelectionsStep acc sel).leagueIDs =
        acc.leagueIDs ++ sel.flatMap entryLeagues := by
  induction sel with
  | nil => intro acc; simp
  | cons e r ih =>
    intro acc
    simp only [List.foldl_cons, List.flatMap_cons]
    rw [ih, parseSelectionsStep_leagueIDs, List.append_assoc]

lemma foldl_parseSelectionsStep_teamIDs (sel : List (String × JSON)) :
    ∀ acc : ParsedSelections,
      (List.foldl parseSelectionsStep acc sel).teamIDs =
        acc.teamIDs ++ sel.flatMap entryTeams := by
  induction sel with
  | nil => intro acc; simp
  | cons e r ih =>
    intro acc
    simp only [List.foldl_cons, List.flatMap_cons]
    rw [ih, parseSelectionsStep_teamIDs, List.append_assoc]

lemma foldl_parseSelectionsStep_maxTier (sel : List (String × JSON)) :
    ∀ acc : ParsedSelections,
      (List.foldl parseSelectionsStep acc sel).maxTier =
        List.foldl tierStep acc.maxTier sel := by
  induction sel with
  | nil => intro acc; simp
  | cons e r ih =>
    intro acc
    simp only [List.foldl_cons]
    rw [ih, parseSelectionsStep_maxTier]

lemma tierStep_ge (t : Int) (e : String × JSON) : t ≤ tierStep t e := by
  unfold tierStep
  cases entryTier e with
  | none => simp
  | some x =>
    by_cases hx : x > t <;> simp [hx]
    omega

lemma foldl_tierStep_ge (sel : List (String × JSON)) :
    ∀ t : Int, t ≤ List.foldl tierStep t sel := by
  induction sel with
  | nil => intro t; simp
  | cons e r ih =>
    intro t
    calc t ≤ tierStep t e := tierStep_ge t e
    _ ≤ List.foldl tierStep (tierStep t e) r := ih _
    _ = List.foldl tierStep t (e :: r) := by simp

lemma foldl_tierStep_of_none (sel : List (String × JSON)) :
    ∀ t : Int, (∀ e ∈ sel, entryTier e = none) → List.foldl tierStep t sel = t := by
  induction sel with
  | nil => intro t _; simp
  | cons e r ih =>
    intro t h
    have he : entryTier e = none := h e (by simp)
    have hr : ∀ x ∈ r, entryTier x = none := fun x hx => h x (by simp [hx])
    simp only [List.foldl_cons]
    rw [show tierStep t e = t by unfold tierStep; rw [he], ih t hr]

/-- Claim C4: `parseSelections` returns max-tier 1 when no per-game
maxTier value is present, and for every input — including tier values of
0 or negative — the returned max-tier is at least 1. -/
theorem parseSelections_maxTier_default_and_positive
    (sel : List (String × JSON)) :
    ((∀ e ∈ sel, entryTier e = none) → (parseSelections sel).maxTier = 1) ∧
      1 ≤ (parseSelections sel).maxTier := by
  constructor
  · intro h
    unfold parseSelections
    rw [foldl_parseSelectionsStep_maxTier, foldl_tierStep_of_none sel 1 h]
  · unfold parseSelections
    rw [foldl_parseSelectionsStep_maxTier]
    exact foldl_tierStep_ge sel 1

/-- Witness for C4 at a concrete payload with a tier value of 0: the
default branch does not apply, but the ceiling still is at least 1 (here
the code keeps 1, since 0 never exceeds the running maximum). -/
theorem parseSelections_maxTier_default_and_positive_witness :
    ((∀ e ∈ [(("3" : String), JSON.obj [("maxTier", JSON.num 0)])], entryTier e = none) →
        (parseSelections [("3", JSON.obj [("maxTier", JSON.num 0)])]).maxTier = 1) ∧
      1 ≤ (parseSelections [("3", JSON.obj [("maxTier", JSON.num 0)])]).maxTier :=
  parseSelections_maxTier_default_and_positive
    [("3", JSON.obj [("maxTier", JSON.num 0)])]

/-- Claim C6: `parseSelections` is total and skips malformed pieces
individually: a key that fails integer parsing leaves the accumulator
unchanged, and each output list is exactly the per-entry contribution of
well-formed pieces (non-numeric league/team array elements are dropped by
`numItems` while numeric ones in the same array survive). -/
theorem parseSelections_total_and_skips (sel : List (String × JSON)) :
    (parseSelections sel).gameIDs = sel.flatMap entryGames ∧
      (parseSelections sel).leagueIDs = sel.flatMap entryLeagues ∧
      (parseSelections sel).teamIDs = sel.flatMap entryTeams ∧
      (∀ (acc : ParsedSelections) (k : String) (v : JSON),
        goParseInt32 k = none → parseSelectionsStep acc (k, v) = acc) := by
  refine ⟨?_, ?_, ?_, ?_⟩
  · unfold parseSelections
    rw [foldl_parseSelectionsStep_gameIDs]; simp
  · unfold parseSelections
    rw [foldl_parseSelectionsStep_leagueIDs]; simp
  · unfold parseSelections
    rw [foldl_parseSelectionsStep_teamIDs]; simp
  · intro acc k v h
    unfold parseSelectionsStep
    rw [h]

/-- Claim C10: a key that parses as an integer always contributes its game
id, even when its selection value is malformed; a non-object value
contributes no leagues, teams or tier. -/
theorem parseSelections_malformed_value_still_selects
    (sel : List (String × JSON)) (k : String) (v : JSON) (g : Int)
    (hmem : (k, v) ∈ sel) (hparse : goParseInt32 k = some g) :
    g ∈ (parseSelections sel).gameIDs ∧
      ((∀ m, v ≠ JSON.obj m) →
        entryLeagues (k, v) = [] ∧ entryTeams (k, v) = [] ∧
          entryTier (k, v) = none) := by
  constructor
  · unfold parseSelections
    rw [foldl_parseSelectionsStep_gameIDs]
    simp only [List.nil_append, List.mem_flatMap]
    exact ⟨(k, v), hmem, by unfold entryGames; rw [hparse]; simp⟩
  · intro hobj
    unfold entryLeagues entryTeams entryTier
    cases v <;> simp [hparse]
    case obj m => exact absurd rfl (hobj m)

/-- Witness for C10: the payload maps key "7" to a malformed (string)
selection value; game 7 is still selected and nothing else is
contributed. -/
theorem parseSelections_malformed_value_still_selects_witness :
    7 ∈ (parseSelections [(("7" : String), JSON.str "junk")]).gameIDs ∧
      ((∀ m, JSON.str "junk" ≠ JSON.obj m) →
        entryLeagues ("7", JSON.str "junk") = [] ∧
          entryTeams ("7", JSON.str "junk") = [] ∧
          entryTier ("7", JSON.str "junk") = none) :=
  parseSelections_malformed_value_still_selects
    [("7", JSON.str "junk")] "7" (JSON.str "junk") 7 (by simp)
    (by decide)

/-- Counterexample for C5 as stated: the handlers detect the wrapped shape
by the presence of a `selections` object key, so a bare selection payload
that itself binds `"selections"` to an object is parsed differently from
its wrapped form (the wrapped form selects no game, the bare form selects
game 1). -/
theorem handlerParseSelections_wrap_bare_differ :
    handlerParseSelections
        (wrapBody [("selections", JSON.obj [("1", JSON.obj [])])] true) ≠
      handlerParseSelections [("selections", JSON.obj [("1", JSON.obj [])])] := by
  decide

/-- Claim C5, amended: parsing the wrapped body always yields exactly the
filter of the wrapped selections (and recovers the `hideScores` flag), and
the bare shape yields the same filter provided the bare payload does not
itself bind `"selections"` to a JSON object — the shape sniffing
misreads such payloads. -/
theorem handlerParseSelections_wrapped_eq_bare
    (sel : List (String × JSON)) (b : Bool) :
    handlerParseSelections (wrapBody sel b) = parseSelections sel ∧
      extractHideScores (wrapBody sel b) = b ∧
      (isObjVal (jsonLookup sel "selections") = false →
        handlerParseSelections sel = parseSelections sel) := by
  refine ⟨?_, ?_, ?_⟩
  · unfold handlerParseSelections extractSelections wrapBody jsonLookup
    simp
  · simp [extractHideScores, wrapBody, jsonLookup]
  · intro h
    unfold handlerParseSelections extractSelections
    cases hl : jsonLookup sel "selections" with
    | none => rfl
    | some v =>
      cases v <;> simp
      case obj m => rw [hl] at h; simp [isObjVal] at h

/-- Witness for C5 at a concrete selection payload and flag. -/
theorem handlerParseSelections_wrapped_eq_bare_witness :
    handlerParseSelections (wrapBody [(("3" : String), JSON.obj [])] true) =
        parseSelections [("3", JSON.obj [])] ∧
      extractHideScores (wrapBody [("3", JSON.obj [])] true) = true ∧
      handlerParseSelections [("3", JSON.obj [])] =
        parseSelections [("3", JSON.obj [])] := by
  have h := handlerParseSelections_wrapped_eq_bare [("3", JSON.obj [])] true
  exact ⟨h.1, h.2.1, h.2.2 (by decide)⟩

lemma mem_insertLe {α : Type} (le : α → α → Bool) (a x : α) (l : List α) :
    x ∈ insertLe le a l ↔ x = a ∨ x ∈ l := by
  induction l with
  | nil => simp [insertLe]
  | cons b r ih =>
    by_cases h : le a b = true
    · simp [insertLe, h]
    · simp only [insertLe, h]
      simp only [Bool.false_eq_true, if_false, List.mem_cons, ih]
      tauto

lemma length_insertLe {α : Type} (le : α → α → Bool) (a : α) (l : List α) :
    (insertLe le a l).length = l.length + 1 := by
  induction l with
  | nil => simp [insertLe]
  | cons b r ih =>
    by_cases h : le a b = true <;> simp [insertLe, h, ih]

lemma length_sortLe {α : Type} (le : α → α → Bool) (l : List α) :
    (sortLe le l).length = l.length := by
  induction l with
  | nil => rfl
  | cons a r ih => simp [sortLe, List.foldr_cons, length_insertLe, ih.symm]

lemma mem_sortLe {α : Type} (le : α → α → Bool) (x : α) (l : List α) :
    x ∈ sortLe le l ↔ x ∈ l := by
  induction l with
  | nil => simp [sortLe]
  | cons a r ih =>
    simp only [sortLe, List.foldr_cons] at *
    rw [mem_insertLe, ih, List.mem_cons]

lemma pairwise_insertLe {α : Type} {le : α → α → Bool}
    (htot : ∀ a b, le a b = true ∨ le b a = true)
    (htrans : ∀ a b c, le a b = true → le b c = true → le a c = true)
    (a : α) (l : List α) (hl : l.Pairwise (fun x y => le x y = true)) :
    (insertLe le a l).Pairwise (fun x y => le x y = true) := by
  induction l with
  | nil => simp [insertLe]
  | cons b r ih =>
    rcases List.pairwise_cons.mp hl with ⟨hb, hr⟩
    by_cases h : le a b = true
    · simp only [insertLe, h, if_true]
      refine List.pairwise_cons.mpr ⟨?_, hl⟩
      intro x hx
      rcases List.mem_cons.mp hx with rfl | hx
      · exact h
      · exact htrans a b x h (hb x hx)
    · simp only [insertLe, h, Bool.false_eq_true, if_false]
      have hba : le b a = true := (htot a b).resolve_left h
      refine List.pairwise_cons.mpr ⟨?_, ih hr⟩
      intro x hx
      rcases (mem_insertLe le a x r).mp hx with rfl | hx
      · exact hba
      · exact hb x hx

lemma pairwise_sortLe {α : Type} {le : α → α → Bool}
    (htot : ∀ a b, le a b = true ∨ le b a = true)
    (htrans : ∀ a b c, le a b = true → le b c = true → le a c = true)
    (l : List α) :
    (sortLe le l).Pairwise (fun x y => le x y = true) := by
  induction l with
  | nil => simp [sortLe]
  | cons a r ih => exact pairwise_insertLe htot htrans a _ ih

lemma startLeB_total : ∀ a b : MatchRow, startLeB a b = true ∨ startLeB b a = true := by
  intro a b
  unfold startLeB
  rcases Int.le_total (startKey a) (startKey b) with h | h
  · exact Or.inl (by simpa using h)
  · exact Or.inr (by simpa using h)

lemma startLeB_trans :
    ∀ a b c : MatchRow, startLeB a b = true → startLeB b c = true → startLeB a c = true := by
  intro a b c hab hbc
  unfold startLeB at *
  simp only [decide_eq_true_eq] at *
  omega

lemma startGeB_total : ∀ a b : MatchRow, startGeB a b = true ∨ startGeB b a = true := by
  intro a b
  unfold startGeB
  rcases Int.le_total (startKey a) (startKey b) with h | h
  · exact Or.inr (by simpa using h)
  · exact Or.inl (by simpa using h)

lemma startGeB_trans :
    ∀ a b c : MatchRow, startGeB a b = true → startGeB b c = true → startGeB a c = true := by
  intro a b c hab hbc
  unfold startGeB at *
  simp only [decide_eq_true_eq] at *
  omega

lemma startSorted_sortLe (l : List MatchRow) : startSorted (sortLe startLeB l) := by
  have h := pairwise_sortLe startLeB_total startLeB_trans l
  unfold startSorted
  refine h.imp ?_
  intro a b hab
  simpa [startLeB] using hab

lemma startSorted_take (l : List MatchRow) (n : Nat) (h : startSorted l) :
    startSorted (l.take n) := by
  exact List.Pairwise.sublist (List.take_sublist n l) h

lemma getFutureMatches_sorted (db : List MatchRow) (now : Int)
    (g l t : List Int) (mt : Int) (lim : Nat) :
    startSorted (getFutureMatchesBySelections db now g l t mt lim) := by
  unfold getFutureMatchesBySelections
  exact startSorted_take _ _ (startSorted_sortLe _)

lemma getPastMatches_sorted (db : List MatchRow) (now : Int)
    (g l t : List Int) (mt : Int) (lim : Nat) :
    startSorted (getPastMatchesBySelections db now g l t mt lim) := by
  unfold getPastMatchesBySelections
  exact startSorted_sortLe _

lemma getFutureMatches_mem (db : List MatchRow) (now : Int)
    (g l t : List Int) (mt : Int) (lim : Nat) (m : MatchRow)
    (h : m ∈ getFutureMatchesBySelections db now g l t mt lim) :
    futureWhere now g l t mt m = true := by
  unfold getFutureMatchesBySelections at h
  have h2 := List.take_subset lim _ h
  rw [mem_sortLe] at h2
  exact (List.mem_filter.mp h2).2

lemma getPastMatches_mem (db : List MatchRow) (now : Int)
    (g l t : List Int) (mt : Int) (lim : Nat) (m : MatchRow)
    (h : m ∈ getPastMatchesBySelections db now g l t mt lim) :
    pastWhere now g l t mt m = true := by
  unfold getPastMatchesBySelections at h
  rw [mem_sortLe] at h
  have h2 := List.take_subset lim _ h
  rw [mem_sortLe] at h2
  exact (List.mem_filter.mp h2).2

lemma futureWhere_start (now : Int) (g l t : List Int) (mt : Int)
    (m : MatchRow) (h : futureWhere now g l t mt m = true) :
    ∃ s, m.expectedStartTime = some s ∧ now ≤ s := by
  unfold futureWhere at h
  cases hs : m.expectedStartTime with
  | none => rw [hs] at h; simp at h
  | some s =>
    rw [hs] at h
    simp only [Bool.and_eq_true, decide_eq_true_eq] at h
    exact ⟨s, rfl, h.1⟩

lemma pastWhere_start (now : Int) (g l t : List Int) (mt : Int)
    (m : MatchRow) (h : pastWhere now g l t mt m = true) :
    ∃ s, m.expectedStartTime = some s ∧ s < now := by
  unfold pastWhere at h
  cases hs : m.expectedStartTime with
  | none => rw [hs] at h; simp at h
  | some s =>
    rw [hs] at h
    simp only [Bool.and_eq_true, decide_eq_true_eq] at h
    exact ⟨s, rfl, h.1⟩

lemma getFutureMatches_length (db : List MatchRow) (now : Int)
    (g l t : List Int) (mt : Int) (lim : Nat) :
    (getFutureMatchesBySelections db now g l t mt lim).length =
      min lim (db.filter (futureWhere now g l t mt)).length := by
  unfold getFutureMatchesBySelections
  rw [List.length_take, length_sortLe]

lemma fetchMatches_eq_of_ne (db : List MatchRow) (now : Int)
    (g l t : List Int) (mt : Int) (hne : g ≠ []) :
    fetchMatches db now g l t mt =
      ((if totalLimit - (getFutureMatchesBySelections db now g l t mt totalLimit).length > 0 then
          getPastMatchesBySelections db now g l t mt
            (totalLimit - (getFutureMatchesBySelections db now g l t mt totalLimit).length)
        else []) ++ getFutureMatchesBySelections db now g l t mt totalLimit,
       (getFutureMatchesBySelections db now g l t mt totalLimit).isEmpty &&
         !(if totalLimit - (getFutureMatchesBySelections db now g l t mt totalLimit).length > 0 then
             getPastMatchesBySelections db now g l t mt
               (totalLimit - (getFutureMatchesBySelections db now g l t mt totalLimit).length)
           else []).isEmpty) := by
  have hE : g.isEmpty = false := by
    cases g with
    | nil => exact absurd rfl hne
    | cons a r => rfl
  unfold fetchMatches
  rw [hE]
  simp only [Bool.false_eq_true, if_false]

/-- Counterexample for C1 as stated: ten stored matches share the same
future start time, the future query returns all ten (at least N = 10), yet
the result is not strictly ascending by start time — the SQL `ORDER BY`
admits ties. -/
theorem fetchMatches_result_not_strictly_ascending :
    10 ≤ (((List.range 10).map
        (fun i => (⟨(i : Int), some 100, 1, 1, 0, 0, some 1⟩ : MatchRow))).filter
          (futureWhere 0 [1] [1] [] 1)).length ∧
      ¬ startStrictSorted
        (fetchMatches
          ((List.range 10).map
            (fun i => (⟨(i : Int), some 100, 1, 1, 0, 0, some 1⟩ : MatchRow)))
          0 [1] [1] [] 1).1 := by
  constructor
  · decide
  · unfold startStrictSorted
    decide

/-- Claim C1, amended: whenever the future query finds at least N = 10
matching rows and the filter is non-empty, `fetchMatches` returns exactly
the 10 rows of the future query — so no past-query result is included —
every returned match starts no earlier than now, and the list is sorted in
non-decreasing (rather than strictly ascending) start-time order. -/
theorem fetchMatches_enough_future (db : List MatchRow) (now : Int)
    (g l t : List Int) (mt : Int) (hne : g ≠ [])
    (h10 : totalLimit ≤ (db.filter (futureWhere now g l t mt)).length) :
    (fetchMatches db now g l t mt).1.length = totalLimit ∧
      (fetchMatches db now g l t mt).1 =
        getFutureMatchesBySelections db now g l t mt totalLimit ∧
      (∀ m ∈ (fetchMatches db now g l t mt).1,
        ∃ s, m.expectedStartTime = some s ∧ now ≤ s) ∧
      startSorted (fetchMatches db now g l t mt).1 := by
  have hlen : (getFutureMatchesBySelections db now g l t mt totalLimit).length = totalLimit := by
    rw [getFutureMatches_length]
    exact Nat.min_eq_left h10
  have hres : (fetchMatches db now g l t mt).1 =
      getFutureMatchesBySelections db now g l t mt totalLimit := by
    rw [fetchMatches_eq_of_ne db now g l t mt hne]
    simp [hlen]
  refine ⟨by rw [hres, hlen], hres, ?_, ?_⟩
  · intro m hm
    rw [hres] at hm
    exact futureWhere_start now g l t mt m (getFutureMatches_mem db now g l t mt totalLimit m hm)
  · rw [hres]
    exact getFutureMatches_sorted db now g l t mt totalLimit

/-- Witness for C1 (amended) at a store of ten distinct-time future
matches. -/
theorem fetchMatches_enough_future_witness :
    (fetchMatches
        ((List.range 10).map
          (fun i => (⟨(i : Int), some (100 + (i : Int)), 1, 1, 0, 0, some 1⟩ : MatchRow)))
        0 [1] [1] [] 1).1.length = totalLimit ∧
      (fetchMatches
        ((List.range 10).map
          (fun i => (⟨(i : Int), some (100 + (i : Int)), 1, 1, 0, 0, some 1⟩ : MatchRow)))
        0 [1] [1] [] 1).1 =
        getFutureMatchesBySelections
          ((List.range 10).map
            (fun i => (⟨(i : Int), some (100 + (i : Int)), 1, 1, 0, 0, some 1⟩ : MatchRow)))
          0 [1] [1] [] 1 totalLimit ∧
      (∀ m ∈ (fetchMatches
          ((List.range 10).map
            (fun i => (⟨(i : Int), some (100 + (i : Int)), 1, 1, 0, 0, some 1⟩ : MatchRow)))
          0 [1] [1] [] 1).1,
        ∃ s, m.expectedStartTime = some s ∧ 0 ≤ s) ∧
      startSorted
        (fetchMatches
          ((List.range 10).map
            (fun i => (⟨(i : Int), some (100 + (i : Int)), 1, 1, 0, 0, some 1⟩ : MatchRow)))
          0 [1] [1] [] 1).1 :=
  fetchMatches_enough_future
    ((List.range 10).map
      (fun i => (⟨(i : Int), some (100 + (i : Int)), 1, 1, 0, 0, some 1⟩ : MatchRow)))
    0 [1] [1] [] 1 (by decide) (by decide)

/-- Claim C2: for a non-empty filter the past-fallback flag is true if and
only if the future query found nothing and the past query (issued with the
full limit of 10 in that case) found at least one match. -/
theorem fetchMatches_past_fallback_iff (db : List MatchRow) (now : Int)
    (g l t : List Int) (mt : Int) (hne : g ≠ []) :
    (fetchMatches db now g l t mt).2 = true ↔
      (getFutureMatchesBySelections db now g l t mt totalLimit = [] ∧
        getPastMatchesBySelections db now g l t mt totalLimit ≠ []) := by
  rw [fetchMatches_eq_of_ne db now g l t mt hne]
  by_cases hf : getFutureMatchesBySelections db now g l t mt totalLimit = []
  · rw [hf]
    have hp : totalLimit - (List.length ([] : List MatchRow)) > 0 := by decide
    rw [if_pos hp]
    simp [List.isEmpty_iff]
  · have hfe : (getFutureMatchesBySelections db now g l t mt totalLimit).isEmpty = false := by
      rw [Bool.eq_false_iff]
      intro h
      exact hf (List.isEmpty_iff.mp h)
    simp [hfe, hf]

/-- Witness for C2 at a store with one past and no future match: the flag
is set and the equivalence evaluates on concrete query results. -/
theorem fetchMatches_past_fallback_iff_witness :
    (fetchMatches [⟨1, some 50, 1, 1, 0, 0, some 1⟩] 100 [1] [1] [] 1).2 = true ↔
      (getFutureMatchesBySelections [⟨1, some 50, 1, 1, 0, 0, some 1⟩] 100 [1] [1] [] 1
          totalLimit = [] ∧
        getPastMatchesBySelections [⟨1, some 50, 1, 1, 0, 0, some 1⟩] 100 [1] [1] [] 1
          totalLimit ≠ []) :=
  fetchMatches_past_fallback_iff [⟨1, some 50, 1, 1, 0, 0, some 1⟩] 100 [1] [1] [] 1
    (by decide)

/-- Claim C3: when backfill triggers (fewer than 10 future matches on a
non-empty filter), the result is the past-query rows — fetched descending,
re-sorted ascending — concatenated before the ascending future rows, and
the whole list is in chronological (non-decreasing start-time) order. -/
theorem fetchMatches_backfill_order (db : List MatchRow) (now : Int)
    (g l t : List Int) (mt : Int) (hne : g ≠ [])
    (hlt : (getFutureMatchesBySelections db now g l t mt totalLimit).length < totalLimit) :
    (fetchMatches db now g l t mt).1 =
      getPastMatchesBySelections db now g l t mt
          (totalLimit - (getFutureMatchesBySelections db now g l t mt totalLimit).length) ++
        getFutureMatchesBySelections db now g l t mt totalLimit ∧
      startSorted
        (getPastMatchesBySelections db now g l t mt
          (totalLimit - (getFutureMatchesBySelections db now g l t mt totalLimit).length)) ∧
      startSorted (fetchMatches db now g l t mt).1 := by
  have hpos : totalLimit - (getFutureMatchesBySelections db now g l t mt totalLimit).length > 0 := by
    omega
  have hres : (fetchMatches db now g l t mt).1 =
      getPastMatchesBySelections db now g l t mt
          (totalLimit - (getFutureMatchesBySelections db now g l t mt totalLimit).length) ++
        getFutureMatchesBySelections db now g l t mt totalLimit := by
    rw [fetchMatches_eq_of_ne db now g l t mt hne]
    simp [hpos]
  refine ⟨hres, getPastMatches_sorted db now g l t mt _, ?_⟩
  rw [hres]
  unfold startSorted
  rw [List.pairwise_append]
  refine ⟨getPastMatches_sorted db now g l t mt _,
    getFutureMatches_sorted db now g l t mt totalLimit, ?_⟩
  intro a ha b hb
  obtain ⟨sa, hsa, hsa2⟩ :=
    pastWhere_start now g l t mt a (getPastMatches_mem db now g l t mt _ a ha)
  obtain ⟨sb, hsb, hsb2⟩ :=
    futureWhere_start now g l t mt b (getFutureMatches_mem db now g l t mt totalLimit b hb)
  unfold startKey
  rw [hsa, hsb]
  simp only [Option.getD_some]
  omega

/-- Witness for C3 at a store with one past and one future match. -/
theorem fetchMatches_backfill_order_witness :
    (fetchMatches [⟨1, some 50, 1, 1, 0, 0, some 1⟩, ⟨2, some 150, 1, 1, 0, 0, some 1⟩]
        100 [1] [1] [] 1).1 =
      getPastMatchesBySelections
          [⟨1, some 50, 1, 1, 0, 0, some 1⟩, ⟨2, some 150, 1, 1, 0, 0, some 1⟩] 100 [1] [1] [] 1
          (totalLimit - (getFutureMatchesBySelections
            [⟨1, some 50, 1, 1, 0, 0, some 1⟩, ⟨2, some 150, 1, 1, 0, 0, some 1⟩]
            100 [1] [1] [] 1 totalLimit).length) ++
        getFutureMatchesBySelections
          [⟨1, some 50, 1, 1, 0, 0, some 1⟩, ⟨2, some 150, 1, 1, 0, 0, some 1⟩]
          100 [1] [1] [] 1 totalLimit ∧
      startSorted
        (getPastMatchesBySelections
          [⟨1, some 50, 1, 1, 0, 0, some 1⟩, ⟨2, some 150, 1, 1, 0, 0, some 1⟩] 100 [1] [1] [] 1
          (totalLimit - (getFutureMatchesBySelections
            [⟨1, some 50, 1, 1, 0, 0, some 1⟩, ⟨2, some 150, 1, 1, 0, 0, some 1⟩]
            100 [1] [1] [] 1 totalLimit).length)) ∧
      startSorted
        (fetchMatches [⟨1, some 50, 1, 1, 0, 0, some 1⟩, ⟨2, some 150, 1, 1, 0, 0, some 1⟩]
          100 [1] [1] [] 1).1 :=
  fetchMatches_backfill_order
    [⟨1, some 50, 1, 1, 0, 0, some 1⟩, ⟨2, some 150, 1, 1, 0, 0, some 1⟩]
    100 [1] [1] [] 1 (by decide) (by decide)

lemma escapeICSList_eq_flatMap : ∀ l : List Char, escapeICSList l = l.flatMap escapeCharSpec := by
  intro l
  induction l with
  | nil => rfl
  | cons c r ih =>
    show escapeICSList (c :: r) = escapeCharSpec c ++ r.flatMap escapeCharSpec
    rw [← ih]
    unfold escapeICSList replaceChar
    simp only [List.flatMap_cons, List.flatMap_append]
    by_cases h1 : c = '\\'
    · subst h1; rfl
    · by_cases h2 : c = ','
      · subst h2; rfl
      · by_cases h3 : c = ';'
        · subst h3; rfl
        · by_cases h4 : c = '\n'
          · subst h4; rfl
          · simp [escapeCharSpec, h1, h2, h3, h4]

lemma wellEscaped_escapeCharSpec_append (c : Char) (r : List Char)
    (h : wellEscaped r = true) : wellEscaped (escapeCharSpec c ++ r) = true := by
  by_cases h1 : c = '\\'
  · subst h1; simpa [escapeCharSpec, wellEscaped] using h
  · by_cases h2 : c = ','
    · subst h2; simpa [escapeCharSpec, wellEscaped] using h
    · by_cases h3 : c = ';'
      · subst h3; simpa [escapeCharSpec, wellEscaped] using h
      · by_cases h4 : c = '\n'
        · subst h4; simpa [escapeCharSpec, wellEscaped] using h
        · simp [escapeCharSpec, h1, h2, h3, h4, wellEscaped, h]

lemma wellEscaped_flatMap_escapeCharSpec : ∀ l : List Char,
    wellEscaped (l.flatMap escapeCharSpec) = true := by
  intro l
  induction l with
  | nil => rfl
  | cons c r ih =>
    rw [List.flatMap_cons]
    exact wellEscaped_escapeCharSpec_append c _ ih

lemma unescape_escapeCharSpec_append (c : Char) (r : List Char) :
    unescapeICSList (escapeCharSpec c ++ r) = c :: unescapeICSList r := by
  by_cases h1 : c = '\\'
  · subst h1; simp [escapeCharSpec, unescapeICSList]
  · by_cases h2 : c = ','
    · subst h2; simp [escapeCharSpec, unescapeICSList]
    · by_cases h3 : c = ';'
      · subst h3; simp [escapeCharSpec, unescapeICSList]
      · by_cases h4 : c = '\n'
        · subst h4; simp [escapeCharSpec, unescapeICSList]
        · simp [escapeCharSpec, h1, h2, h3, h4, unescapeICSList]

lemma unescape_flatMap_escapeCharSpec : ∀ l : List Char,
    unescapeICSList (l.flatMap escapeCharSpec) = l := by
  intro l
  induction l with
  | nil => rfl
  | cons c r ih =>
    rw [List.flatMap_cons, unescape_escapeCharSpec_append, ih]

lemma digitChar_isDigit_of_lt (n : Nat) (h : n < 10) :
    (Nat.digitChar n).isDigit = true := by
  interval_cases n <;> decide

lemma formatICSTimeUTC_shape (t : Int) :
    (formatICSTimeUTC t).length = 16 ∧
      (formatICSTimeUTC t).data[8]? = some 'T' ∧
      (formatICSTimeUTC t).data[15]? = some 'Z' ∧
      ∀ c ∈ (formatICSTimeUTC t).data, c.isDigit = true ∨ c = 'T' ∨ c = 'Z' := by
  unfold formatICSTimeUTC pad4 pad2
  refine ⟨by simp [String.length], by simp, by simp, ?_⟩
  intro c hc
  simp only [String.data] at hc
  simp only [List.cons_append, List.nil_append, List.mem_cons, List.not_mem_nil, or_false] at hc
  have hd : ∀ n : Nat, c = Nat.digitChar (n % 10) → c.isDigit = true ∨ c = 'T' ∨ c = 'Z' := by
    intro n he
    exact Or.inl (he ▸ digitChar_isDigit_of_lt (n % 10) (Nat.mod_lt n (by omega)))
  rcases hc with rfl | rfl | rfl | rfl | rfl | rfl | rfl | rfl | rfl | rfl | rfl | rfl | rfl | rfl | rfl | rfl
  · exact hd _ rfl
  · exact hd _ rfl
  · exact hd _ rfl
  · exact hd _ rfl
  · exact hd _ rfl
  · exact hd _ rfl
  · exact hd _ rfl
  · exact hd _ rfl
  · exact Or.inr (Or.inl rfl)
  · exact hd _ rfl
  · exact hd _ rfl
  · exact hd _ rfl
  · exact hd _ rfl
  · exact hd _ rfl
  · exact hd _ rfl
  · exact Or.inr (Or.inr rfl)

lemma foldl_append_eq_flatMap {α β : Type} (f : α → List β) (l : List α) :
    ∀ acc : List β, l.foldl (fun acc m => acc ++ f m) acc = acc ++ l.flatMap f := by
  induction l with
  | nil => intro acc; simp
  | cons m r ih =>
    intro acc
    rw [List.foldl_cons, ih, List.flatMap_cons, List.append_assoc]

lemma generateICSLines_eq (ms : List CalRow) (hs : Bool) (url : String) :
    generateICSLines ms hs url =
      icsHeaderLines ++ ms.flatMap (matchEventLines hs url) ++ ["END:VCALENDAR"] := by
  unfold generateICSLines
  rw [foldl_append_eq_flatMap]
  simp

lemma head?_data_append (pre suf : String) (c : Char)
    (h : pre.data.head? = some c) : (pre ++ suf).data.head? = some c := by
  rw [String.data_append]
  cases hd : pre.data with
  | nil => rw [hd] at h; cases h
  | cons a r => rw [hd] at h; simpa using h

lemma ne_of_head?_data (s target : String) (c d : Char)
    (hsh : s.data.head? = some c) (hth : target.data.head? = some d)
    (hcd : c ≠ d) : s ≠ target := by
  intro he
  rw [he, hth] at hsh
  exact hcd (Option.some.inj hsh).symm

lemma count_matchEventLines_some (hs : Bool) (url : String) (m : CalRow)
    (t : Int) (h : m.expectedStartTime = some t) :
    List.count "BEGIN:VEVENT" (matchEventLines hs url m) = 1 := by
  have hB : ("BEGIN:VEVENT" : String).data.head? = some 'B' := rfl
  have hUID : ("UID:" ++ toString m.id ++ "@" ++ url) ≠ "BEGIN:VEVENT" :=
    ne_of_head?_data _ _ 'U' 'B'
      (head?_data_append _ _ _ (head?_data_append _ _ _ (head?_data_append _ _ _ rfl)))
      hB (by decide)
  have hDTSTAMP : ("DTSTAMP:" ++ formatICSTimeUTC t) ≠ "BEGIN:VEVENT" :=
    ne_of_head?_data _ _ 'D' 'B' (head?_data_append _ _ _ rfl) hB (by decide)
  have hDTSTART : ("DTSTART:" ++ formatICSTimeUTC t) ≠ "BEGIN:VEVENT" :=
    ne_of_head?_data _ _ 'D' 'B' (head?_data_append _ _ _ rfl) hB (by decide)
  have hDTEND : ("DTEND:" ++ formatICSTimeUTC (t + m.amountOfGames * 3600)) ≠ "BEGIN:VEVENT" :=
    ne_of_head?_data _ _ 'D' 'B' (head?_data_append _ _ _ rfl) hB (by decide)
  have hURL : ("URL:" ++ url) ≠ "BEGIN:VEVENT" :=
    ne_of_head?_data _ _ 'U' 'B' (head?_data_append _ _ _ rfl) hB (by decide)
  have hSUM : ("SUMMARY:" ++ escapeICS (summaryOf hs m)) ≠ "BEGIN:VEVENT" :=
    ne_of_head?_data _ _ 'S' 'B' (head?_data_append _ _ _ rfl) hB (by decide)
  have hDESC : ("DESCRIPTION:" ++ escapeICS (descriptionOf hs m)) ≠ "BEGIN:VEVENT" :=
    ne_of_head?_data _ _ 'D' 'B' (head?_data_append _ _ _ rfl) hB (by decide)
  have hLOC : ("LOCATION:" ++ escapeICS (locationOf m)) ≠ "BEGIN:VEVENT" :=
    ne_of_head?_data _ _ 'L' 'B' (head?_data_append _ _ _ rfl) hB (by decide)
  have hSTAT : ("STATUS:CONFIRMED" : String) ≠ "BEGIN:VEVENT" := by decide
  have hEND : ("END:VEVENT" : String) ≠ "BEGIN:VEVENT" := by decide
  unfold matchEventLines
  rw [h]
  by_cases hloc : locationOf m ≠ ""
  · simp [hloc, List.count_append, List.count_cons, hUID, hDTSTAMP, hDTSTART,
      hDTEND, hURL, hSUM, hDESC, hLOC, hSTAT, hEND]
  · simp [hloc, List.count_append, List.count_cons, hUID, hDTSTAMP, hDTSTART,
      hDTEND, hURL, hSUM, hDESC, hSTAT, hEND]

lemma matchEventLines_none (hs : Bool) (url : String) (m : CalRow)
    (h : m.expectedStartTime = none) : matchEventLines hs url m = [] := by
  unfold matchEventLines
  rw [h]

lemma count_flatMap_events (hs : Bool) (url : String) : ∀ ms : List CalRow,
    List.count "BEGIN:VEVENT" (ms.flatMap (matchEventLines hs url)) =
      (ms.filter (fun m => m.expectedStartTime.isSome)).length := by
  intro ms
  induction ms with
  | nil => rfl
  | cons m r ih =>
    rw [List.flatMap_cons, List.count_append, ih]
    cases hm : m.expectedStartTime with
    | none =>
      rw [matchEventLines_none hs url m hm]
      simp [List.filter_cons, hm]
    | some t =>
      rw [count_matchEventLines_some hs url m t hm]
      simp [List.filter_cons, hm]
      omega

lemma mem_generateICSLines_of_mem_event (ms : List CalRow) (hs : Bool)
    (url : String) (m : CalRow) (hm : m ∈ ms) (line : String)
    (hl : line ∈ matchEventLines hs url m) :
    line ∈ generateICSLines ms hs url := by
  rw [generateICSLines_eq]
  refine List.mem_append.mpr (Or.inl (List.mem_append.mpr (Or.inr ?_)))
  exact List.mem_flatMap.mpr ⟨m, hm, hl⟩

lemma dtstart_mem_matchEventLines (hs : Bool) (url : String) (m : CalRow)
    (t : Int) (h : m.expectedStartTime = some t) :
    ("DTSTART:" ++ formatICSTimeUTC t) ∈ matchEventLines hs url m := by
  unfold matchEventLines
  rw [h]
  simp

lemma dtend_mem_matchEventLines (hs : Bool) (url : String) (m : CalRow)
    (t : Int) (h : m.expectedStartTime = some t) :
    ("DTEND:" ++ formatICSTimeUTC (t + m.amountOfGames * 3600)) ∈
      matchEventLines hs url m := by
  unfold matchEventLines
  rw [h]
  simp

lemma summary_mem_matchEventLines (hs : Bool) (url : String) (m : CalRow)
    (t : Int) (h : m.expectedStartTime = some t) :
    ("SUMMARY:" ++ escapeICS (summaryOf hs m)) ∈ matchEventLines hs url m := by
  unfold matchEventLines
  rw [h]
  simp

lemma description_mem_matchEventLines (hs : Bool) (url : String) (m : CalRow)
    (t : Int) (h : m.expectedStartTime = some t) :
    ("DESCRIPTION:" ++ escapeICS (descriptionOf hs m)) ∈ matchEventLines hs url m := by
  unfold matchEventLines
  rw [h]
  simp

lemma location_mem_matchEventLines (hs : Bool) (url : String) (m : CalRow)
    (t : Int) (h : m.expectedStartTime = some t) (hloc : locationOf m ≠ "") :
    ("LOCATION:" ++ escapeICS (locationOf m)) ∈ matchEventLines hs url m := by
  unfold matchEventLines
  rw [h]
  simp [hloc]

/-- Claim C7: the calendar codec emits exactly one VEVENT per match with a
non-null start time (none for a null start time); each event's DTSTART is
the formatted start and its DTEND is the formatted start plus
`AmountOfGames` hours; and the timestamp format is UTC basic ISO
(`yyyymmddThhmmssZ`: 16 characters with `T` at index 8 and a final `Z`). -/
theorem generateICS_one_event_per_valid_match (ms : List CalRow) (hs : Bool)
    (url : String) :
    List.count "BEGIN:VEVENT" (generateICSLines ms hs url) =
        (ms.filter (fun m => m.expectedStartTime.isSome)).length ∧
      (∀ m ∈ ms, ∀ t : Int, m.expectedStartTime = some t →
        ("DTSTART:" ++ formatICSTimeUTC t) ∈ generateICSLines ms hs url ∧
          ("DTEND:" ++ formatICSTimeUTC (t + m.amountOfGames * 3600)) ∈
            generateICSLines ms hs url) ∧
      (∀ t : Int, (formatICSTimeUTC t).length = 16 ∧
        (formatICSTimeUTC t).data[8]? = some 'T' ∧
        (formatICSTimeUTC t).data[15]? = some 'Z') := by
  refine ⟨?_, ?_, ?_⟩
  · rw [generateICSLines_eq, List.count_append, List.count_append]
    rw [count_flatMap_events]
    have h1 : List.count "BEGIN:VEVENT" icsHeaderLines = 0 := by decide
    have h2 : List.count "BEGIN:VEVENT" ["END:VCALENDAR"] = 0 := by decide
    rw [h1, h2]
    omega
  · intro m hm t ht
    exact ⟨mem_generateICSLines_of_mem_event ms hs url m hm _
        (dtstart_mem_matchEventLines hs url m t ht),
      mem_generateICSLines_of_mem_event ms hs url m hm _
        (dtend_mem_matchEventLines hs url m t ht)⟩
  · intro t
    obtain ⟨h1, h2, h3, _⟩ := formatICSTimeUTC_shape t
    exact ⟨h1, h2, h3⟩

/-- Witness for C7: two stored matches, one with a start time and one
without; the calendar contains exactly one VEVENT and the DTSTART/DTEND
pair of the scheduled match, three games long. -/
theorem generateICS_one_event_per_valid_match_witness :
    List.count "BEGIN:VEVENT"
        (generateICSLines
          [{ id := 5, name := "A vs B", expectedStartTime := some 0,
             finished := false, team1Score := 0, team2Score := 0,
             amountOfGames := 3, gameName := "LoL", leagueName := "LCK",
             seriesName := "", tournamentName := "", team1Name := some "A",
             team2Name := some "B" },
           { id := 6, name := "C vs D", expectedStartTime := none,
             finished := false, team1Score := 0, team2Score := 0,
             amountOfGames := 3, gameName := "LoL", leagueName := "LCK",
             seriesName := "", tournamentName := "", team1Name := some "C",
             team2Name := some "D" }] false "example.org") =
        (([{ id := 5, name := "A vs B", expectedStartTime := some 0,
             finished := false, team1Score := 0, team2Score := 0,
             amountOfGames := 3, gameName := "LoL", leagueName := "LCK",
             seriesName := "", tournamentName := "", team1Name := some "A",
             team2Name := some "B" },
           { id := 6, name := "C vs D", expectedStartTime := none,
             finished := false, team1Score := 0, team2Score := 0,
             amountOfGames := 3, gameName := "LoL", leagueName := "LCK",
             seriesName := "", tournamentName := "", team1Name := some "C",
             team2Name := some "D" }] : List CalRow).filter
          (fun m => m.expectedStartTime.isSome)).length ∧
      ("DTSTART:" ++ formatICSTimeUTC 0) ∈
        generateICSLines
          [{ id := 5, name := "A vs B", expectedStartTime := some 0,
             finished := false, team1Score := 0, team2Score := 0,
             amountOfGames := 3, gameName := "LoL", leagueName := "LCK",
             seriesName := "", tournamentName := "", team1Name := some "A",
             team2Name := some "B" },
           { id := 6, name := "C vs D", expectedStartTime := none,
             finished := false, team1Score := 0, team2Score := 0,
             amountOfGames := 3, gameName := "LoL", leagueName := "LCK",
             seriesName := "", tournamentName := "", team1Name := some "C",
             team2Name := some "D" }] false "example.org" ∧
      ("DTEND:" ++ formatICSTimeUTC (0 + 3 * 3600)) ∈
        generateICSLines
          [{ id := 5, name := "A vs B", expectedStartTime := some 0,
             finished := false, team1Score := 0, team2Score := 0,
             amountOfGames := 3, gameName := "LoL", leagueName := "LCK",
             seriesName := "", tournamentName := "", team1Name := some "A",
             team2Name := some "B" },
           { id := 6, name := "C vs D", expectedStartTime := none,
             finished := false, team1Score := 0, team2Score := 0,
             amountOfGames := 3, gameName := "LoL", leagueName := "LCK",
             seriesName := "", tournamentName := "", team1Name := some "C",
             team2Name := some "D" }] false "example.org" := by
  have h := generateICS_one_event_per_valid_match
    [{ id := 5, name := "A vs B", expectedStartTime := some 0,
       finished := false, team1Score := 0, team2Score := 0,
       amountOfGames := 3, gameName := "LoL", leagueName := "LCK",
       seriesName := "", tournamentName := "", team1Name := some "A",
       team2Name := some "B" },
     { id := 6, name := "C vs D", expectedStartTime := none,
       finished := false, team1Score := 0, team2Score := 0,
       amountOfGames := 3, gameName := "LoL", leagueName := "LCK",
       seriesName := "", tournamentName := "", team1Name := some "C",
       team2Name := some "D" }] false "example.org"
  have h2 := h.2.1
    { id := 5, name := "A vs B", expectedStartTime := some 0,
      finished := false, team1Score := 0, team2Score := 0,
      amountOfGames := 3, gameName := "LoL", leagueName := "LCK",
      seriesName := "", tournamentName := "", team1Name := some "A",
      team2Name := some "B" } (by simp) 0 rfl
  exact ⟨h.1, h2.1, h2.2⟩

/-- Claim C8: `escapeICS` (backslash escaped first, then comma, semicolon
and newline) produces output in which every special character sits inside
a proper two-character escape pair and no literal newline remains; the
canonical decoder recovers the original string exactly (so nothing is
double-escaped); and every SUMMARY, DESCRIPTION and LOCATION value emitted
by the calendar codec passes through `escapeICS`. -/
theorem escapeICS_balanced_and_applied :
    (∀ s : String, wellEscaped (escapeICS s).data = true) ∧
      (∀ s : String, unescapeICS (escapeICS s) = s) ∧
      (∀ (ms : List CalRow) (hs : Bool) (url : String) (m : CalRow),
        m ∈ ms → ∀ t : Int, m.expectedStartTime = some t →
          ("SUMMARY:" ++ escapeICS (summaryOf hs m)) ∈ generateICSLines ms hs url ∧
            ("DESCRIPTION:" ++ escapeICS (descriptionOf hs m)) ∈
              generateICSLines ms hs url ∧
            (locationOf m ≠ "" →
              ("LOCATION:" ++ escapeICS (locationOf m)) ∈ generateICSLines ms hs url)) := by
  refine ⟨?_, ?_, ?_⟩
  · intro s
    show wellEscaped (escapeICSList s.data) = true
    rw [escapeICSList_eq_flatMap]
    exact wellEscaped_flatMap_escapeCharSpec s.data
  · intro s
    show String.mk (unescapeICSList (escapeICSList s.data)) = s
    rw [escapeICSList_eq_flatMap, unescape_flatMap_escapeCharSpec]
  · intro ms hs url m hm t ht
    exact ⟨mem_generateICSLines_of_mem_event ms hs url m hm _
        (summary_mem_matchEventLines hs url m t ht),
      mem_generateICSLines_of_mem_event ms hs url m hm _
        (description_mem_matchEventLines hs url m t ht),
      fun hloc => mem_generateICSLines_of_mem_event ms hs url m hm _
        (location_mem_matchEventLines hs url m t ht hloc)⟩

/-- Witness for C8: a match whose names contain commas, semicolons,
backslashes and newlines; its escaped SUMMARY, DESCRIPTION and LOCATION
lines all occur in the rendered calendar. -/
theorem escapeICS_balanced_and_applied_witness :
    ("SUMMARY:" ++ escapeICS (summaryOf false
        { id := 9, name := "A,B;C\\D\nE", expectedStartTime := some 0,
          finished := false, team1Score := 0, team2Score := 0,
          amountOfGames := 1, gameName := "CS", leagueName := "L,1",
          seriesName := "S;2", tournamentName := "T\\3", team1Name := none,
          team2Name := some "B" })) ∈
      generateICSLines
        [{ id := 9, name := "A,B;C\\D\nE", expectedStartTime := some 0,
           finished := false, team1Score := 0, team2Score := 0,
           amountOfGames := 1, gameName := "CS", leagueName := "L,1",
           seriesName := "S;2", tournamentName := "T\\3", team1Name := none,
           team2Name := some "B" }] false "example.org" ∧
      ("DESCRIPTION:" ++ escapeICS (descriptionOf false
        { id := 9, name := "A,B;C\\D\nE", expectedStartTime := some 0,
          finished := false, team1Score := 0, team2Score := 0,
          amountOfGames := 1, gameName := "CS", leagueName := "L,1",
          seriesName := "S;2", tournamentName := "T\\3", team1Name := none,
          team2Name := some "B" })) ∈
      generateICSLines
        [{ id := 9, name := "A,B;C\\D\nE", expectedStartTime := some 0,
           finished := false, team1Score := 0, team2Score := 0,
           amountOfGames := 1, gameName := "CS", leagueName := "L,1",
           seriesName := "S;2", tournamentName := "T\\3", team1Name := none,
           team2Name := some "B" }] false "example.org" ∧
      ("LOCATION:" ++ escapeICS (locationOf
        { id := 9, name := "A,B;C\\D\nE", expectedStartTime := some 0,
          finished := false, team1Score := 0, team2Score := 0,
          amountOfGames := 1, gameName := "CS", leagueName := "L,1",
          seriesName := "S;2", tournamentName := "T\\3", team1Name := none,
          team2Name := some "B" })) ∈
      generateICSLines
        [{ id := 9, name := "A,B;C\\D\nE", expectedStartTime := some 0,
           finished := false, team1Score := 0, team2Score := 0,
           amountOfGames := 1, gameName := "CS", leagueName := "L,1",
           seriesName := "S;2", tournamentName := "T\\3", team1Name := none,
           team2Name := some "B" }] false "example.org" := by
  have h := escapeICS_balanced_and_applied
  have h3 := h.2.2
    [{ id := 9, name := "A,B;C\\D\nE", expectedStartTime := some 0,
       finished := false, team1Score := 0, team2Score := 0,
       amountOfGames := 1, gameName := "CS", leagueName := "L,1",
       seriesName := "S;2", tournamentName := "T\\3", team1Name := none,
       team2Name := some "B" }] false "example.org"
    { id := 9, name := "A,B;C\\D\nE", expectedStartTime := some 0,
      finished := false, team1Score := 0, team2Score := 0,
      amountOfGames := 1, gameName := "CS", leagueName := "L,1",
      seriesName := "S;2", tournamentName := "T\\3", team1Name := none,
      team2Name := some "B" } (by simp) 0 rfl
  exact ⟨h3.1, h3.2.1, h3.2.2 (by decide)⟩

lemma find?_first_of_split {α : Type} (p : α → Bool) (l1 l2 : List α) (c : α)
    (h1 : ∀ b ∈ l1, ¬ p b = true) (hc : p c = true) :
    (l1 ++ c :: l2).find? p = some c := by
  induction l1 with
  | nil => simp [List.find?, hc]
  | cons b r ih =>
    have hb : p b = false := by
      have := h1 b (by simp)
      exact Bool.eq_false_iff.mpr this
    rw [List.cons_append, List.find?_cons, hb]
    exact ih (fun x hx => h1 x (by simp [hx]))

lemma perm_cons_eraseP_of_find {α : Type} (p : α → Bool) (l : List α) (e : α)
    (h : l.find? p = some e) : (e :: l.eraseP p).Perm l := by
  have he := List.mem_of_find?_eq_some h
  have hp := List.find?_some h
  obtain ⟨c, l1, l2, hl1, hpc, hsplit, herase⟩ := List.exists_of_eraseP he hp
  have hfc : l.find? p = some c := by
    rw [hsplit]
    exact find?_first_of_split p l1 l2 c hl1 hpc
  rw [h] at hfc
  obtain rfl : e = c := Option.some.inj hfc
  rw [herase, hsplit]
  exact List.perm_middle.symm

lemma hash_not_mem_eraseP (l : List ICSEntry) (h : String)
    (hnd : (l.map ICSEntry.hash).Nodup) (e : ICSEntry) (hmem : e ∈ l)
    (heh : e.hash = h) :
    h ∉ (l.eraseP (fun x => x.hash = h)).map ICSEntry.hash := by
  induction l with
  | nil => simp
  | cons b r ih =>
    rw [List.map_cons, List.nodup_cons] at hnd
    by_cases hb : b.hash = h
    · have hd : decide (b.hash = h) = true := decide_eq_true hb
      rw [List.eraseP_cons, hd]
      simp only [cond_true]
      rw [← hb]
      exact fun hk => hnd.1 hk
    · have hd : decide (b.hash = h) = false := decide_eq_false hb
      rw [List.eraseP_cons, hd]
      simp only [cond_false, List.map_cons, List.mem_cons]
      rintro (rfl | hk)
      · exact hb rfl
      · have hr : e ∈ r := by
          rcases List.mem_cons.mp hmem with rfl | hr
          · exact absurd heh hb
          · exact hr
        exact ih hnd.2 hr hk

lemma icsCacheGet_hit_promotes (st : ICSCacheState) (h : String) (now : Nat)
    (content : String) (st' : ICSCacheState)
    (hget : icsCacheGet st h now = (some content, st')) :
    ∃ e : ICSEntry, e.hash = h ∧ e.content = content ∧
      st'.entries.head? = some e ∧ (cacheKeys st').Perm (cacheKeys st) := by
  unfold icsCacheGet at hget
  split at hget
  · simp at hget
  · next e heq =>
    split at hget
    · simp at hget
    · simp only [Prod.mk.injEq, Option.some.injEq] at hget
      obtain ⟨hc, hs⟩ := hget
      have hp := List.find?_some heq
      refine ⟨e, of_decide_eq_true hp, hc, ?_, ?_⟩
      · rw [← hs]
        rfl
      · rw [← hs]
        exact (perm_cons_eraseP_of_find _ _ _ heq).map ICSEntry.hash

lemma icsCacheSet_new_at_capacity (st : ICSCacheState) (h c : String)
    (now : Nat)
    (hnew : (st.entries.find? (fun x => x.hash = h)).isSome = false)
    (hlen : st.entries.length = maxCacheSize)
    (hnd : (cacheKeys st).Nodup)
    (lru : String) (hlast : (cacheKeys st).getLast? = some lru) :
    cacheKeys (icsCacheSet st h c now) = h :: (cacheKeys st).dropLast ∧
      (icsCacheSet st h c now).entries.length = maxCacheSize ∧
      lru ∉ cacheKeys (icsCacheSet st h c now) ∧
      ∀ k ∈ cacheKeys st, k ≠ lru → k ∈ cacheKeys (icsCacheSet st h c now) := by
  have hkeysne : cacheKeys st ≠ [] := by
    intro he
    rw [he] at hlast
    cases hlast
  have hlru : lru = (cacheKeys st).getLast hkeysne := by
    have h2 := List.getLast?_eq_getLast (cacheKeys st) hkeysne
    rw [hlast] at h2
    exact Option.some.inj h2
  have hsplit : (cacheKeys st).dropLast ++ [lru] = cacheKeys st := by
    rw [hlru]
    exact List.dropLast_append_getLast hkeysne
  have hfn : st.entries.find? (fun x => x.hash = h) = none := by
    cases hq : st.entries.find? (fun x => x.hash = h) with
    | none => rfl
    | some e => rw [hq] at hnew; simp at hnew
  have hnotmem : h ∉ cacheKeys st := by
    intro hk
    obtain ⟨e, hme, hhe⟩ := List.mem_map.mp hk
    exact (List.find?_eq_none.mp hfn e hme) (by simp [hhe])
  have hge : st.entries.length ≥ maxCacheSize := hlen.ge
  have hset : icsCacheSet st h c now = ⟨⟨h, c, now⟩ :: st.entries.dropLast⟩ := by
    unfold icsCacheSet
    rw [hfn]
    simp only [Option.isSome_none, Bool.false_eq_true, if_false]
    rw [if_pos hge]
  have hkeys : cacheKeys (icsCacheSet st h c now) = h :: (cacheKeys st).dropLast := by
    rw [hset]
    unfold cacheKeys
    simp only [List.map_cons]
    rw [List.map_dropLast]
  have hlrumem : lru ∈ cacheKeys st := List.mem_of_mem_getLast? hlast
  have hlrune : lru ≠ h := fun he => hnotmem (he ▸ hlrumem)
  have hdisj : lru ∉ (cacheKeys st).dropLast := by
    intro hmem
    have hnd2 : ((cacheKeys st).dropLast ++ [lru]).Nodup := by rw [hsplit]; exact hnd
    exact (List.nodup_append.mp hnd2).2.2 hmem (List.mem_singleton.mpr rfl)
  refine ⟨hkeys, ?_, ?_, ?_⟩
  · rw [hset]
    simp only [List.length_cons, List.length_dropLast]
    have h256 : maxCacheSize = 256 := rfl
    omega
  · rw [hkeys]
    intro hmem
    rcases List.mem_cons.mp hmem with he | hmem2
    · exact hlrune he
    · exact hdisj hmem2
  · intro k hk hkne
    have : k ∈ (cacheKeys st).dropLast := by
      rw [← hsplit] at hk
      rcases List.mem_append.mp hk with hk2 | hk2
      · exact hk2
      · exact absurd (List.mem_singleton.mp hk2) hkne
    rw [hkeys]
    exact List.mem_cons.mpr (Or.inr this)

lemma cacheStep_inv (st : ICSCacheState) (op : CacheOp)
    (hlen : st.entries.length ≤ maxCacheSize)
    (hnd : (cacheKeys st).Nodup) :
    (cacheStep st op).entries.length ≤ maxCacheSize ∧
      (cacheKeys (cacheStep st op)).Nodup := by
  cases op with
  | get h now =>
    show (icsCacheGet st h now).2.entries.length ≤ maxCacheSize ∧
      (cacheKeys (icsCacheGet st h now).2).Nodup
    cases hfq : st.entries.find? (fun x => x.hash = h) with
    | none =>
      have hget : icsCacheGet st h now = (none, st) := by
        unfold icsCacheGet
        simp only [hfq]
      rw [hget]
      exact ⟨hlen, hnd⟩
    | some e =>
      have hmem := List.mem_of_find?_eq_some hfq
      have hp := List.find?_some hfq
      have heh : e.hash = h := of_decide_eq_true hp
      by_cases hexp : now - e.lastUpdate > cacheRefreshTime
      · have hget : icsCacheGet st h now = (none, st) := by
          unfold icsCacheGet
          simp only [hfq]
          rw [if_pos hexp]
        rw [hget]
        exact ⟨hlen, hnd⟩
      · have hget : (icsCacheGet st h now).2 =
            ⟨e :: st.entries.eraseP (fun x => x.hash = h)⟩ := by
          unfold icsCacheGet
          simp only [hfq]
          rw [if_neg hexp]
        rw [hget]
        constructor
        · show (e :: st.entries.eraseP (fun x => x.hash = h)).length ≤ maxCacheSize
          rw [List.length_cons, List.length_eraseP_of_mem hmem hp]
          have hpos := List.length_pos.mpr (List.ne_nil_of_mem hmem)
          omega
        · show (List.map ICSEntry.hash (e :: st.entries.eraseP (fun x => x.hash = h))).Nodup
          rw [List.map_cons]
          refine List.nodup_cons.mpr ⟨?_, ?_⟩
          · rw [heh]
            exact hash_not_mem_eraseP st.entries h hnd e hmem heh
          · exact List.Nodup.sublist ((List.eraseP_sublist _).map ICSEntry.hash) hnd
  | set h c now =>
    show (icsCacheSet st h c now).entries.length ≤ maxCacheSize ∧
      (cacheKeys (icsCacheSet st h c now)).Nodup
    by_cases hf : (st.entries.find? (fun x => x.hash = h)).isSome = true
    · obtain ⟨e, heq⟩ := Option.isSome_iff_exists.mp hf
      have hmem := List.mem_of_find?_eq_some heq
      have hp := List.find?_some heq
      have heh : e.hash = h := of_decide_eq_true hp
      have hset : icsCacheSet st h c now =
          ⟨⟨h, c, now⟩ :: st.entries.eraseP (fun x => x.hash = h)⟩ := by
        unfold icsCacheSet
        rw [if_pos hf]
      rw [hset]
      constructor
      · show (ICSEntry.mk h c now :: st.entries.eraseP (fun x => x.hash = h)).length ≤ maxCacheSize
        rw [List.length_cons, List.length_eraseP_of_mem hmem hp]
        have hpos := List.length_pos.mpr (List.ne_nil_of_mem hmem)
        omega
      · show (List.map ICSEntry.hash
            (ICSEntry.mk h c now :: st.entries.eraseP (fun x => x.hash = h))).Nodup
        rw [List.map_cons]
        refine List.nodup_cons.mpr ⟨?_, ?_⟩
        · exact hash_not_mem_eraseP st.entries h hnd e hmem heh
        · exact List.Nodup.sublist ((List.eraseP_sublist _).map ICSEntry.hash) hnd
    · have hfn : st.entries.find? (fun x => x.hash = h) = none := by
        cases hq : st.entries.find? (fun x => x.hash = h) with
        | none => rfl
        | some e => rw [hq] at hf; simp at hf
      have hnotmem : h ∉ cacheKeys st := by
        intro hk
        obtain ⟨e, hme, hhe⟩ := List.mem_map.mp hk
        exact (List.find?_eq_none.mp hfn e hme) (by simp [hhe])
      by_cases hcap : st.entries.length ≥ maxCacheSize
      · have hset : icsCacheSet st h c now = ⟨⟨h, c, now⟩ :: st.entries.dropLast⟩ := by
          unfold icsCacheSet
          rw [hfn]
          simp only [Option.isSome_none, Bool.false_eq_true, if_false]
          rw [if_pos hcap]
        rw [hset]
        constructor
        · show (ICSEntry.mk h c now :: st.entries.dropLast).length ≤ maxCacheSize
          rw [List.length_cons, List.length_dropLast]
          have h256 : maxCacheSize = 256 := rfl
          omega
        · show (List.map ICSEntry.hash (ICSEntry.mk h c now :: st.entries.dropLast)).Nodup
          rw [List.map_cons, List.map_dropLast]
          refine List.nodup_cons.mpr ⟨?_, ?_⟩
          · intro hmem
            exact hnotmem ((List.dropLast_sublist (cacheKeys st)).subset hmem)
          · exact List.Nodup.sublist (List.dropLast_sublist _) hnd
      · have hset : icsCacheSet st h c now = ⟨⟨h, c, now⟩ :: st.entries⟩ := by
          unfold icsCacheSet
          rw [hfn]
          simp only [Option.isSome_none, Bool.false_eq_true, if_false]
          rw [if_neg hcap]
        rw [hset]
        constructor
        · show (ICSEntry.mk h c now :: st.entries).length ≤ maxCacheSize
          rw [List.length_cons]
          omega
        · show (List.map ICSEntry.hash (ICSEntry.mk h c now :: st.entries)).Nodup
          rw [List.map_cons]
          exact List.nodup_cons.mpr ⟨hnotmem, hnd⟩

lemma runCacheOps_inv (ops : List CacheOp) :
    (runCacheOps ops).entries.length ≤ maxCacheSize ∧
      (cacheKeys (runCacheOps ops)).Nodup := by
  suffices hgen : ∀ (l : List CacheOp) (st : ICSCacheState),
      st.entries.length ≤ maxCacheSize → (cacheKeys st).Nodup →
      (l.foldl cacheStep st).entries.length ≤ maxCacheSize ∧
        (cacheKeys (l.foldl cacheStep st)).Nodup by
    exact hgen ops ⟨[]⟩ (by simp [maxCacheSize]) (by simp [cacheKeys])
  intro l
  induction l with
  | nil => intro st h1 h2; exact ⟨h1, h2⟩
  | cons op r ih =>
    intro st h1 h2
    obtain ⟨h3, h4⟩ := cacheStep_inv st op h1 h2
    exact ih _ h3 h4

/-- Claim C9: in the bounded `ICSCache`, every Get hit returns the cached
content and moves the entry to most-recently-used while preserving the key
set; a Set of a new key when the cache holds `maxCacheSize` entries evicts
exactly the single least-recently-used (back) entry before inserting, so
the least-recently-touched key is the one absent afterwards; and every
sequence of Set/Get operations from the empty cache keeps at most
`maxCacheSize` entries with pairwise-distinct keys. -/
theorem icsCache_lru_behaviour (st : ICSCacheState) (h : String) (now : Nat)
    (c : String) :
    (∀ (content : String) (st' : ICSCacheState),
        icsCacheGet st h now = (some content, st') →
        ∃ e : ICSEntry, e.hash = h ∧ e.content = content ∧
          st'.entries.head? = some e ∧ (cacheKeys st').Perm (cacheKeys st)) ∧
      ((st.entries.find? (fun x => x.hash = h)).isSome = false →
        st.entries.length = maxCacheSize →
        (cacheKeys st).Nodup →
        ∀ lru : String, (cacheKeys st).getLast? = some lru →
          cacheKeys (icsCacheSet st h c now) = h :: (cacheKeys st).dropLast ∧
            (icsCacheSet st h c now).entries.length = maxCacheSize ∧
            lru ∉ cacheKeys (icsCacheSet st h c now) ∧
            ∀ k ∈ cacheKeys st, k ≠ lru →
              k ∈ cacheKeys (icsCacheSet st h c now)) ∧
      (∀ ops : List CacheOp,
        (runCacheOps ops).entries.length ≤ maxCacheSize ∧
          (cacheKeys (runCacheOps ops)).Nodup) :=
  ⟨fun content st' hget => icsCacheGet_hit_promotes st h now content st' hget,
    fun h1 h2 h3 lru h4 => icsCacheSet_new_at_capacity st h c now h1 h2 h3 lru h4,
    runCacheOps_inv⟩

set_option maxRecDepth 8192 in
/-- Witness for C9: a Get hit on a two-entry cache promotes the hit entry;
a Set of a fresh key into a full 256-entry cache keeps the size at 256 and
drops exactly the back key; a short operation sequence from the empty
cache satisfies the size and distinctness invariant. -/
theorem icsCache_lru_behaviour_witness :
    (∃ e : ICSEntry, e.hash = "b" ∧ e.content = "B" ∧
        (⟨[⟨"b", "B", 0⟩, ⟨"a", "A", 0⟩]⟩ : ICSCacheState).entries.head? = some e ∧
        (cacheKeys (⟨[⟨"b", "B", 0⟩, ⟨"a", "A", 0⟩]⟩ : ICSCacheState)).Perm
          (cacheKeys (⟨[⟨"a", "A", 0⟩, ⟨"b", "B", 0⟩]⟩ : ICSCacheState))) ∧
      (cacheKeys
          (icsCacheSet
            ⟨(List.range 256).map
              (fun i => (⟨String.mk (List.replicate i 'a'), "", 0⟩ : ICSEntry))⟩
            "new" "C" 5) =
          "new" ::
            (cacheKeys
              (⟨(List.range 256).map
                (fun i => (⟨String.mk (List.replicate i 'a'), "", 0⟩ : ICSEntry))⟩ :
                ICSCacheState)).dropLast ∧
        (icsCacheSet
            ⟨(List.range 256).map
              (fun i => (⟨String.mk (List.replicate i 'a'), "", 0⟩ : ICSEntry))⟩
            "new" "C" 5).entries.length = maxCacheSize ∧
        String.mk (List.replicate 255 'a') ∉
          cacheKeys
            (icsCacheSet
              ⟨(List.range 256).map
                (fun i => (⟨String.mk (List.replicate i 'a'), "", 0⟩ : ICSEntry))⟩
              "new" "C" 5) ∧
        ∀ k ∈ cacheKeys
            (⟨(List.range 256).map
              (fun i => (⟨String.mk (List.replicate i 'a'), "", 0⟩ : ICSEntry))⟩ :
              ICSCacheState),
          k ≠ String.mk (List.replicate 255 'a') →
            k ∈ cacheKeys
              (icsCacheSet
                ⟨(List.range 256).map
                  (fun i => (⟨String.mk (List.replicate i 'a'), "", 0⟩ : ICSEntry))⟩
                "new" "C" 5)) ∧
      ((runCacheOps
          [CacheOp.set "a" "A" 0, CacheOp.get "a" 1,
            CacheOp.set "b" "B" 2]).entries.length ≤ maxCacheSize ∧
        (cacheKeys
          (runCacheOps
            [CacheOp.set "a" "A" 0, CacheOp.get "a" 1,
              CacheOp.set "b" "B" 2])).Nodup) := by
  refine ⟨(icsCache_lru_behaviour ⟨[⟨"a", "A", 0⟩, ⟨"b", "B", 0⟩]⟩ "b" 10 "").1 "B"
      ⟨[⟨"b", "B", 0⟩, ⟨"a", "A", 0⟩]⟩ (by decide),
    (icsCache_lru_behaviour
        ⟨(List.range 256).map
          (fun i => (⟨String.mk (List.replicate i 'a'), "", 0⟩ : ICSEntry))⟩
        "new" 5 "C").2.1
      (by decide) (by decide) ?_ (String.mk (List.replicate 255 'a')) (by decide),
    (icsCache_lru_behaviour ⟨[]⟩ "a" 0 "A").2.2
      [CacheOp.set "a" "A" 0, CacheOp.get "a" 1, CacheOp.set "b" "B" 2]⟩
  show (((List.range 256).map
      (fun i => (⟨String.mk (List.replicate i 'a'), "", 0⟩ : ICSEntry))).map
        ICSEntry.hash).Nodup
  rw [List.map_map]
  refine List.Nodup.map ?_ (List.nodup_range 256)
  intro i j hij
  have h2 := congrArg String.data hij
  have h3 := congrArg List.length h2
  simpa using h3
